import Mathlib

/-!
Verification of the influxdata/go-samples repository against its
natural-language specification.

The development shallowly embeds the parts of the Go sources the claims
are about:

* `cmd/iot_app/main.go` — the SQLite-backed login flow (`getLoginDB`,
  `tryLoginCredentials`, `registerUser`) together with the Go standard
  library pieces it relies on (`crypto/sha256`, `encoding/hex`,
  `strings.TrimPrefix`) and the host-URL normalization in `main`
  (modelling `net/url.Parse` for the components the code inspects).
* the boilerplate application (second document of `cmd/write_data/main.go`)
  — the `/ingest`, `/query` and `/setup` handlers and `handleError`.
* `cmd/sample-app/main.go` — the `/ingest`, `/query`, `/visualize`,
  `/tasks` and `/monitor` handlers.

Machine words are `Nat` with explicit `% 2^32` (resp. `% 256`) where the
Go code computes on `uint32` (resp. `byte`).
-/

namespace GoSamples

/-! ### 32-bit words as Nat (Go uint32 arithmetic, mod 2^32 explicit) -/

/-- 2^32, the modulus of Go uint32 arithmetic. -/
def M32 : Nat := 4294967296

/-- Right rotation of a 32-bit word (Go `bits.RotateLeft32(x, -n)` as used by
the sha256 package, for `x < 2^32`). -/
def rotr32 (n x : Nat) : Nat := ((x >>> n) ||| (x <<< (32 - n))) % M32

/-! ### crypto/sha256 (Go standard library), embedded over Nat bytes

Faithful FIPS 180-4 SHA-256 as implemented by Go `crypto/sha256`:
message padding, big-endian word schedule, 64 compression rounds. -/

/-- The 64 SHA-256 round constants `K` (FIPS 180-4, written in decimal). -/
def sha256K : List Nat :=
  [1116352408, 1899447441, 3049323471, 3921009573, 961987163, 1508970993,
   2453635748, 2870763221, 3624381080, 310598401, 607225278, 1426881987,
   1925078388, 2162078206, 2614888103, 3248222580, 3835390401, 4022224774,
   264347078, 604807628, 770255983, 1249150122, 1555081692, 1996064986,
   2554220882, 2821834349, 2952996808, 3210313671, 3336571891, 3584528711,
   113926993, 338241895, 666307205, 773529912, 1294757372, 1396182291,
   1695183700, 1986661051, 2177026350, 2456956037, 2730485921, 2820302411,
   3259730800, 3345764771, 3516065817, 3600352804, 4094571909, 275423344,
   430227734, 506948616, 659060556, 883997877, 958139571, 1322822218,
   1537002063, 1747873779, 1955562222, 2024104815, 2227730452, 2361852424,
   2428436474, 2756734187, 3204031479, 3329325298]

/-- The eight working variables of the SHA-256 compression function. -/
structure Hash8 where
  a : Nat
  b : Nat
  c : Nat
  d : Nat
  e : Nat
  f : Nat
  g : Nat
  h : Nat
deriving DecidableEq, Repr

/-- The SHA-256 initial hash value (FIPS 180-4, written in decimal). -/
def sha256H0 : Hash8 :=
  ⟨1779033703, 3144134277, 1013904242, 2773480762,
   1359893119, 2600822924, 528734635, 1541459225⟩

/-- Big sigma-0. -/
def bsig0 (x : Nat) : Nat := rotr32 2 x ^^^ rotr32 13 x ^^^ rotr32 22 x

/-- Big sigma-1. -/
def bsig1 (x : Nat) : Nat := rotr32 6 x ^^^ rotr32 11 x ^^^ rotr32 25 x

/-- Small sigma-0 (message schedule). -/
def ssig0 (x : Nat) : Nat := rotr32 7 x ^^^ rotr32 18 x ^^^ (x >>> 3)

/-- Small sigma-1 (message schedule). -/
def ssig1 (x : Nat) : Nat := rotr32 17 x ^^^ rotr32 19 x ^^^ (x >>> 10)

/-- Choice function: for each bit, e selects f or g (bitwise not of e within
32 bits written as xor with 2^32-1). -/
def chf (x y z : Nat) : Nat := (x &&& y) ^^^ ((x ^^^ 4294967295) &&& z)

/-- Majority function. -/
def maj (x y z : Nat) : Nat := (x &&& y) ^^^ (x &&& z) ^^^ (y &&& z)

/-- List lookup with default 0, for the message schedule recurrence. -/
def nth (l : List Nat) (i : Nat) : Nat := l.getD i 0

/-- Extend the 16-word block to the 64-word message schedule; `fuel` counts
the remaining words to append (48 for a full schedule). -/
def schedExt (w : List Nat) : Nat → List Nat
  | 0 => w
  | fuel + 1 =>
    let i := w.length
    schedExt
      (w ++ [(ssig1 (nth w (i - 2)) + nth w (i - 7) + ssig0 (nth w (i - 15)) + nth w (i - 16)) % M32])
      fuel

/-- One SHA-256 compression round, consuming one (constant, schedule word) pair. -/
def sha256Round (s : Hash8) (kw : Nat × Nat) : Hash8 :=
  let t1 := (s.h + bsig1 s.e + chf s.e s.f s.g + kw.1 + kw.2) % M32
  let t2 := (bsig0 s.a + maj s.a s.b s.c) % M32
  ⟨(t1 + t2) % M32, s.a, s.b, s.c, (s.d + t1) % M32, s.e, s.f, s.g⟩

/-- Compress one 16-word block into the running hash state. -/
def sha256Block (st : Hash8) (block : List Nat) : Hash8 :=
  let w := schedExt block 48
  let r := (sha256K.zip w).foldl sha256Round st
  ⟨(st.a + r.a) % M32, (st.b + r.b) % M32, (st.c + r.c) % M32, (st.d + r.d) % M32,
   (st.e + r.e) % M32, (st.f + r.f) % M32, (st.g + r.g) % M32, (st.h + r.h) % M32⟩

/-- SHA-256 padding: append 0x80, zeros to 56 mod 64, then the bit length as
eight big-endian bytes. -/
def padMsg (ms : List Nat) : List Nat :=
  let bitLen := 8 * ms.length
  let zeros := (120 - ((ms.length + 1) % 64)) % 64
  ms ++ [0x80] ++ List.replicate zeros 0 ++
    [(bitLen >>> 56) % 256, (bitLen >>> 48) % 256, (bitLen >>> 40) % 256, (bitLen >>> 32) % 256,
     (bitLen >>> 24) % 256, (bitLen >>> 16) % 256, (bitLen >>> 8) % 256, bitLen % 256]

/-- Split a byte list into 64-byte chunks; the fuel bounds the recursion
depth (the list length always suffices, each step consumes 64 bytes). -/
def chunks64Go : Nat → List Nat → List (List Nat)
  | 0, _ => []
  | _, [] => []
  | fuel + 1, c :: rest => ((c :: rest).take 64) :: chunks64Go fuel ((c :: rest).drop 64)

/-- Split a byte list into 64-byte chunks. -/
def chunks64 (l : List Nat) : List (List Nat) := chunks64Go l.length l

/-- Combine big-endian byte quadruples into 32-bit words (`|||` on disjoint
bit ranges, written low byte first; Nat or is commutative). -/
def bytesToWords : List Nat → List Nat
  | b0 :: b1 :: b2 :: b3 :: rest =>
    (b3 ||| (b2 <<< 8) ||| (b1 <<< 16) ||| (b0 <<< 24)) :: bytesToWords rest
  | _ => []

/-- The four big-endian bytes of a 32-bit word. -/
def wordBytes (w : Nat) : List Nat :=
  [(w >>> 24) % 256, (w >>> 16) % 256, (w >>> 8) % 256, w % 256]

/-- SHA-256 digest of a byte list, as the 32 digest bytes
(Go `sha256.Sum256` / the `hasher.Sum(nil)` pattern of the IoT app). -/
def sha256Bytes (ms : List Nat) : List Nat :=
  let blocks := (chunks64 (padMsg ms)).map bytesToWords
  let r := blocks.foldl sha256Block sha256H0
  [r.a, r.b, r.c, r.d, r.e, r.f, r.g, r.h].flatMap wordBytes

/-! ### UTF-8 encoding of strings (Go `[]byte(s)` on a Go string) -/

/-- UTF-8 encoding of a Unicode code point (valid code points occupy at most
four bytes; `Char` excludes surrogates and values above 0x10FFFF). -/
def utf8Bytes (n : Nat) : List Nat :=
  if n < 0x80 then [n]
  else if n < 0x800 then [0xc0 + (n >>> 6), 0x80 + n % 64]
  else if n < 0x10000 then [0xe0 + (n >>> 12), 0x80 + (n >>> 6) % 64, 0x80 + n % 64]
  else [0xf0 + (n >>> 18), 0x80 + (n >>> 12) % 64, 0x80 + (n >>> 6) % 64, 0x80 + n % 64]

/-- The bytes of a Go string: UTF-8 encoding of its characters. -/
def strBytes (s : String) : List Nat := s.data.flatMap (fun c => utf8Bytes c.toNat)

/-! ### encoding/hex (Go standard library) -/

/-- The lowercase hex digit table (Go `hex.hextable = "0123456789abcdef"`). -/
def hextable : List Char := "0123456789abcdef".data

/-- Hex digit for a value below 16 (the default is never reached on bytes). -/
def hexDigitChar (n : Nat) : Char := hextable.getD n '0'

/-- Go `hex.EncodeToString`: two lowercase digits per byte, high nibble first. -/
def hexEncode : List Nat → List Char
  | [] => []
  | b :: bs => hexDigitChar (b >>> 4) :: hexDigitChar (b &&& 15) :: hexEncode bs

/-- Go `hex.fromHexChar`: value of one hex digit, accepting both cases. -/
def fromHexChar (c : Char) : Option Nat :=
  if '0' ≤ c ∧ c ≤ '9' then some (c.toNat - 48)
  else if 'a' ≤ c ∧ c ≤ 'f' then some (c.toNat - 97 + 10)
  else if 'A' ≤ c ∧ c ≤ 'F' then some (c.toNat - 65 + 10)
  else none

/-- Go `hex.DecodeString`: pairs of digits to bytes; errors (modelled as
`none`) on an invalid digit or an odd-length input. -/
def hexDecode : List Char → Option (List Nat)
  | [] => some []
  | [_] => none
  | a :: b :: rest =>
    match fromHexChar a, fromHexChar b, hexDecode rest with
    | some hi, some lo, some tl => some ((hi * 16 + lo) :: tl)
    | _, _, _ => none

/-! ### strings.HasPrefix / strings.TrimPrefix (Go standard library) -/

/-- Go `strings.HasPrefix(s, p)`, with the candidate first. -/
def startsWith : List Char → List Char → Bool
  | [], _ => true
  | _ :: _, [] => false
  | p :: ps, c :: cs => p == c && startsWith ps cs

/-- Go `strings.TrimPrefix(s, p)`: drop `p` from the front when present,
otherwise return `s` unchanged. -/
def trimPfx (p s : List Char) : List Char :=
  if startsWith p s then s.drop p.length else s

namespace IotApp

/-!
### cmd/iot_app/main.go — the local login flow

Rows model the single `user` table of `logins.db`; the database is the list
of its rows in insertion order (the order `SELECT` yields them in).
`influxdb2.Client` values are opaque to this code beyond the host URL and
token they are constructed from, so a client is modelled as that pair.
-/

/-- One row of the `user` table (`id, email, password, name, readToken,
writeToken`). -/
structure Row where
  id : Nat
  email : String
  password : String
  name : String
  readToken : String
  writeToken : String
deriving DecidableEq, Repr

/-- The `User` struct of the IoT app. -/
structure User where
  valid : Bool
  name : String
  email : String
  readToken : String
  writeToken : String
deriving DecidableEq, Repr

/-- An `influxdb2.Client`, identified by the URL and token passed to
`influxdb2.NewClient`. -/
structure Client where
  url : String
  token : String
deriving DecidableEq, Repr

/-- The mutable globals touched by `tryLoginCredentials`: `activeUser`,
`readClient` and `writeClient` (`none` models the nil interface before any
successful login). -/
structure AppState where
  activeUser : User
  readClient : Option Client
  writeClient : Option Client
deriving DecidableEq, Repr

/-- The state at startup: `main` sets `activeUser.valid = false` and the
clients are still nil. -/
def initialState : AppState :=
  ⟨⟨false, "", "", "", ""⟩, none, none⟩

/-- The stored-password tag prepended by `registerUser` and stripped by
`tryLoginCredentials`. -/
def sha256Tag : List Char := "sha256$".data

/-- The single row `getLoginDB` inserts into a freshly created database. -/
def defaultLoginDB : List Row :=
  [⟨1, "mickey@example.com",
    "sha256$d74ff0ee8da3b9806b18c877dbf29bbde50b5bd8e4dad7a3a725000feb82e8f1",
    "mickey", "my_read_token", "my_write_token"⟩]

/-- The errors `tryLoginCredentials` can return (SQL driver failures of
`Query`/`Scan` have no counterpart on the in-memory table model). -/
inductive LoginError where
  | noMatchingUser
  | hexDecodeFailed
  | incorrectPassword
deriving DecidableEq, Repr

/-- `tryLoginCredentials(db, user, plainPassword)`: select the rows whose
email equals `user`; on the first one, hash the supplied password, strip the
`sha256$` tag from the stored password, hex-decode it and compare. On
success assign `activeUser` and rebuild both clients from the row tokens;
on any failure return the error with the globals untouched. Returns the
new globals and the error (`none` = Go `nil`). -/
def tryLoginCredentials (hostUrl : String) (st : AppState) (db : List Row)
    (user plainPassword : String) : AppState × Option LoginError :=
  match db.filter (fun r => decide (r.email = user)) with
  | [] => (st, some .noMatchingUser)
  | r :: _ =>
    let hash := sha256Bytes (strBytes plainPassword)
    let stored := trimPfx sha256Tag r.password.data
    match hexDecode stored with
    | none => (st, some .hexDecodeFailed)
    | some decoded =>
      if hash = decoded then
        (⟨⟨true, r.name, r.email, r.readToken, r.writeToken⟩,
          some ⟨hostUrl, r.readToken⟩, some ⟨hostUrl, r.writeToken⟩⟩, none)
      else (st, some .incorrectPassword)

/-- The stored form of a password: `"sha256$"` followed by the lowercase hex
encoding of its SHA-256 digest, as built by `registerUser`. -/
def mkStoredPassword (password : String) : String :=
  String.mk (sha256Tag ++ hexEncode (sha256Bytes (strBytes password)))

/-- `registerUser(db, email, name, password, readToken, writeToken)` with the
`rand.Int()` row id made explicit: hash the password, then `INSERT` the row.
The insert fails (`none`) exactly when the table constraints reject it:
`PRIMARY KEY (id)` or `UNIQUE (email)` already taken. -/
def registerUser (db : List Row) (id : Nat)
    (email name password readToken writeToken : String) : Option (List Row) :=
  if db.any (fun r => decide (r.id = id) || decide (r.email = email)) then none
  else some (db ++ [⟨id, email, mkStoredPassword password, name, readToken, writeToken⟩])

end IotApp

/-!
### The HTTP sample applications

The boilerplate application (second document of `cmd/write_data/main.go`)
and `cmd/sample-app/main.go` wrap calls into the InfluxDB client library in
HTTP handlers. A handler is embedded as a function of the decoded request
body (`none` models a body `json.Decode` rejects) and of the outcome of the
library call it makes (the library is external, so its result is a
parameter). A handler returns its HTTP outcome paired with a record of the
library call it issued, so that "the library was never called" is visible.
-/

/-- An error coming back from the client library: either a
`*influxdb2http.Error` carrying an HTTP status code, or any other error. -/
inductive ClientError where
  | httpError (statusCode : Nat) (message : String)
  | other (message : String)
deriving DecidableEq, Repr

/-- What a handler run produces: a response with the status code written
(200 when the handler finishes without an explicit `WriteHeader`) and the
query-result tables marshalled into the body, if any — or a panic. -/
inductive Outcome where
  | response (status : Nat) (tables : Option (List (List String)))
  | panicked (msg : String)
deriving DecidableEq, Repr

/-- An InfluxDB point as built by `influxdb2.NewPoint(measurement, tags,
fields, ts)`. The field value type is a parameter: the handlers thread the
JSON number through without computing on it. -/
structure Pt (ν : Type) where
  measurement : String
  tags : List (String × String)
  fields : List (String × ν)
  time : Nat
deriving DecidableEq, Repr

/-- The decoded `/ingest` request body
(`{"user_id":..., "measurement":..., "field1":...}`). -/
structure IngestRequest (ν : Type) where
  user_id : String
  measurement : String
  field1 : ν
deriving DecidableEq, Repr

/-- The decoded `/query`, `/setup` and `/tasks` request body
(`{"user_id":...}`). -/
structure UserRequest where
  user_id : String
deriving DecidableEq, Repr

/-- The point the `/ingest` handlers construct from a decoded request:
the request measurement, the single `user_id` tag, the single `field1`
field, and the handling time. -/
def mkIngestPoint {ν : Type} (req : IngestRequest ν) (now : Nat) : Pt ν :=
  ⟨req.measurement, [("user_id", req.user_id)], [("field1", req.field1)], now⟩

namespace Boilerplate

/-- `handleError` of the boilerplate app: write the status code carried by a
`*influxdb2http.Error`, default to 500 Internal Server Error otherwise. -/
def handleError : ClientError → Nat
  | .httpError code _ => code
  | .other _ => 500

/-- The `/ingest` handler: decode the body (400 on failure), build the
point, write it, map a write error through `handleError`. Returns the
outcome and the point passed to `WritePoint` (`none` = never called). -/
def ingest {ν : Type} (now : Nat) :
    Option (IngestRequest ν) → (Pt ν → Option ClientError) → Outcome × Option (Pt ν)
  | none, _ => (.response 400 none, none)
  | some req, writePoint =>
    match writePoint (mkIngestPoint req now) with
    | some e => (.response (handleError e) none, some (mkIngestPoint req now))
    | none => (.response 200 none, some (mkIngestPoint req now))

/-- The table-gathering loop of the boilerplate `/query` handler. The
stream is the sequence of records with their `TableChanged()` flags;
`cur` is the `currentTable` pointer (`none` = Go nil). Appending a record
through a nil `currentTable` is a nil-pointer dereference, modelled as
`none` for the whole loop (the client library raises the flag on the first
record, so this does not happen on real streams). -/
def collectTables : Option (List String) → List (List String) → List (Bool × String) →
    Option (List (List String))
  | none, acc, [] => some acc
  | some t, acc, [] => some (acc ++ [t])
  | none, acc, (true, rcd) :: rest => collectTables (some ([] ++ [rcd])) acc rest
  | some t, acc, (true, rcd) :: rest => collectTables (some ([] ++ [rcd])) (acc ++ [t]) rest
  | none, _acc, (false, _rcd) :: _rest => none
  | some t, acc, (false, rcd) :: rest => collectTables (some (t ++ [rcd])) acc rest

/-- The `/query` handler: decode the body (400 on failure), run the
parameterized Flux query, map a query error through `handleError`, else
gather the stream into tables and answer 200 with the marshalled response
(`json.Marshal` cannot fail on this struct). The Bool records whether
`QueryWithParams` was called. -/
def query : Option UserRequest → Except ClientError (List (Bool × String)) → Outcome × Bool
  | none, _ => (.response 400 none, false)
  | some _, .error e => (.response (handleError e) none, true)
  | some _, .ok rows =>
    match collectTables none [] rows with
    | none => (.panicked "invalid memory address or nil pointer dereference", true)
    | some tabs => (.response 200 (some tabs), true)

/-- The down-sampling task Flux built by `/setup` (`fmt.Sprintf` with the
bucket quoted, the user id quoted, the bucket quoted again). -/
def taskFlux (bucketName userID : String) : String :=
  "\n\tdata = from(bucket: \"" ++ bucketName ++ "\")\n\t\t|> range(start: -5m)\n\t\t|> filter(fn: (r) => r.user_id == \"" ++ userID ++
    "\")\n        |> filter(fn: (r) => r._measurement != \"downsampled\")\n\t\t|> drop(columns: [\"_start\", \"_time\", \"_stop\"])\n\n\tmax_data = data\n\t\t|> max()\n\t\t|> map(fn: (r) => (\x7b r with _field: r._field + \"_max\"\x7d))\n\n\tmin_data = data\n\t\t|> min()\n\t\t|> map(fn: (r) => (\x7b r with _field: r._field + \"_min\"\x7d))\n\n\tmean_data = data\n\t\t|> mean()\n\t\t|> map(fn: (r) => (\x7b r with _field: r._field + \"_mean\"\x7d))\n\n\tunion(tables: [max_data, min_data, mean_data])\n\t \t|> map(fn: (r) => (\x7b r with _time: now(), _measurement: \"downsampled\" \x7d))\n\t\t|> to(bucket: \"" ++ bucketName ++ "\")"

/-- The `/setup` handler: decode the body (400 on failure), create the
down-sampling task named `user_id + "_task"` with an every of 5m, map a
creation error through `handleError`. The second component records the
`CreateTaskWithEvery(name, flux, every, orgID)` call issued, if any. -/
def setup (bucketName orgID : String) :
    Option UserRequest → (String → String → String → String → Option ClientError) →
    Outcome × Option (String × String × String × String)
  | none, _ => (.response 400 none, none)
  | some req, createTask =>
    match createTask (req.user_id ++ "_task") (taskFlux bucketName req.user_id) "5m" orgID with
    | some e => (.response (handleError e) none,
        some (req.user_id ++ "_task", taskFlux bucketName req.user_id, "5m", orgID))
    | none => (.response 200 none,
        some (req.user_id ++ "_task", taskFlux bucketName req.user_id, "5m", orgID))

end Boilerplate

namespace SampleApp

/-- The sample-app `/ingest` handler; identical to the boilerplate one
except that the `handleError` logic is inlined at the call site. -/
def ingest {ν : Type} (now : Nat) :
    Option (IngestRequest ν) → (Pt ν → Option ClientError) → Outcome × Option (Pt ν)
  | none, _ => (.response 400 none, none)
  | some req, writePoint =>
    match writePoint (mkIngestPoint req now) with
    | some e =>
      (.response (match e with | .httpError code _ => code | .other _ => 500) none,
       some (mkIngestPoint req now))
    | none => (.response 200 none, some (mkIngestPoint req now))

/-- The sample-app `/query` handler: decode the body (400 on failure), run
the query with the inlined error mapping; on success the body iterates the
stream without effect and falls through to `panic("not implemented")`. -/
def query : Option UserRequest → Except ClientError (List (Bool × String)) → Outcome × Bool
  | none, _ => (.response 400 none, false)
  | some _, .error e =>
    (.response (match e with | .httpError code _ => code | .other _ => 500) none, true)
  | some _, .ok _ => (.panicked "not implemented", true)

/-- The sample-app `/visualize` handler: the whole body is commented out
except `panic("not implemented")`. -/
def visualize : Outcome := .panicked "not implemented"

/-- The sample-app `/tasks` handler: the whole body is commented out except
`panic("not implemented")`; the request body is never even decoded. -/
def tasks (_body : Option UserRequest) : Outcome := .panicked "not implemented"

/-- The sample-app `/monitor` handler: the whole body is commented out
except `panic("not implemented")`. -/
def monitor : Outcome := .panicked "not implemented"

end SampleApp

/-- The response shape the specification ascribes to the JSON endpoints: an
empty response with status 200 or 201, or a 200 response carrying the JSON
array of query result tables. -/
def okEmptyOrTables : Outcome → Bool
  | .response 200 none => true
  | .response 201 none => true
  | .response 200 (some _) => true
  | _ => false

/-- Whether a query result stream raises `TableChanged()` on its first
record (the client library always does: the first record follows the first
table annotations). -/
def firstFlagOk : List (Bool × String) → Bool
  | [] => true
  | (changed, _) :: _ => changed

/-! ### Supporting lemmas -/

theorem fromHexChar_hexDigitChar {n : Nat} (h : n < 16) :
    fromHexChar (hexDigitChar n) = some n := by
  interval_cases n <;> decide

theorem hexDecode_hexEncode : ∀ bs : List Nat, (∀ b ∈ bs, b < 256) →
    hexDecode (hexEncode bs) = some bs
  | [], _ => rfl
  | b :: bs, h => by
    have hb : b < 256 := h b (by simp)
    have hand : b &&& 15 = b % 16 := by
      have h2 := Nat.and_pow_two_sub_one_eq_mod b 4
      norm_num at h2
      exact h2
    have hdiv : b >>> 4 = b / 16 := by
      rw [Nat.shiftRight_eq_div_pow]
    have ih := hexDecode_hexEncode bs (fun x hx => h x (by simp [hx]))
    show hexDecode (hexDigitChar (b >>> 4) :: hexDigitChar (b &&& 15) :: hexEncode bs) = _
    rw [hexDecode, fromHexChar_hexDigitChar (show b >>> 4 < 16 by omega),
      fromHexChar_hexDigitChar (show b &&& 15 < 16 by omega), ih]
    show some ((b >>> 4 * 16 + (b &&& 15)) :: bs) = some (b :: bs)
    have hval : b >>> 4 * 16 + (b &&& 15) = b := by omega
    rw [hval]

theorem sha256Bytes_lt (ms : List Nat) : ∀ b ∈ sha256Bytes ms, b < 256 := by
  intro b hb
  simp only [sha256Bytes, List.mem_flatMap] at hb
  obtain ⟨w, _, hw⟩ := hb
  simp only [wordBytes, List.mem_cons, List.not_mem_nil, or_false] at hw
  rcases hw with h | h | h | h <;> subst h <;> exact Nat.mod_lt _ (by omega)

theorem startsWith_append (p s : List Char) : startsWith p (p ++ s) = true := by
  induction p with
  | nil => rfl
  | cons c cs ih => simp [startsWith, ih]

theorem trimPfx_append (p s : List Char) : trimPfx p (p ++ s) = s := by
  simp [trimPfx, startsWith_append, List.drop_left]

namespace IotApp

/-! ### Claims about the IoT app login flow -/

/-- C1: SHA-256 of the plaintext `"pass"` is exactly the default stored hash
(the stored password column with its `sha256$` tag stripped and hex-decoded),
so on a freshly created login database `tryLoginCredentials` returns nil for
`mickey@example.com` / `pass`. -/
theorem default_login_succeeds :
    hexDecode (trimPfx sha256Tag
        "sha256$d74ff0ee8da3b9806b18c877dbf29bbde50b5bd8e4dad7a3a725000feb82e8f1".data) =
      some (sha256Bytes (strBytes "pass"))
    ∧ ∀ hostUrl : String,
      (tryLoginCredentials hostUrl initialState defaultLoginDB "mickey@example.com" "pass").2
        = none :=
  ⟨by decide, fun _ => rfl⟩

/-- C2: on a table whose emails are pairwise distinct (the `UNIQUE (email)`
schema constraint), `tryLoginCredentials` returns nil exactly when a row with
the given email exists whose stored password, after stripping the `sha256$`
tag and hex-decoding, equals the SHA-256 digest of the supplied plaintext;
in every other case it returns an error. -/
theorem tryLoginCredentials_nil_iff (hostUrl : String) (st : AppState) (db : List Row)
    (user pw : String) (huniq : (db.map Row.email).Nodup) :
    (tryLoginCredentials hostUrl st db user pw).2 = none ↔
      ∃ r ∈ db, r.email = user ∧
        hexDecode (trimPfx sha256Tag r.password.data) = some (sha256Bytes (strBytes pw)) := by
  cases hf : db.filter (fun r => decide (r.email = user)) with
  | nil =>
    simp only [tryLoginCredentials, hf]
    constructor
    · intro h
      simp at h
    · rintro ⟨r, hr, heq, -⟩
      have hmem : r ∈ db.filter (fun r => decide (r.email = user)) :=
        List.mem_filter.mpr ⟨hr, by simp [heq]⟩
      rw [hf] at hmem
      simp at hmem
  | cons r rest =>
    have hrmem : r ∈ db.filter (fun r => decide (r.email = user)) := by
      rw [hf]
      simp
    have hr : r ∈ db ∧ r.email = user := by
      have h := List.mem_filter.mp hrmem
      simpa using h
    simp only [tryLoginCredentials, hf]
    cases hd : hexDecode (trimPfx sha256Tag r.password.data) with
    | none =>
      simp only [hd]
      constructor
      · intro h
        simp at h
      · rintro ⟨r', hr', heq', hdec'⟩
        have hrr : r' = r := List.inj_on_of_nodup_map huniq hr' hr.1 (heq'.trans hr.2.symm)
        subst hrr
        rw [hd] at hdec'
        simp at hdec'
    | some decoded =>
      simp only [hd]
      by_cases hh : sha256Bytes (strBytes pw) = decoded
      · rw [if_pos hh]
        refine iff_of_true rfl ⟨r, hr.1, hr.2, ?_⟩
        rw [hd, hh]
      · rw [if_neg hh]
        constructor
        · intro h
          simp at h
        · rintro ⟨r', hr', heq', hdec'⟩
          have hrr : r' = r := List.inj_on_of_nodup_map huniq hr' hr.1 (heq'.trans hr.2.symm)
          subst hrr
          rw [hd] at hdec'
          exact absurd (Option.some.inj hdec').symm hh

/-- Witness for C2 at the default database and credentials. -/
theorem tryLoginCredentials_nil_iff_witness :
    (tryLoginCredentials "" initialState defaultLoginDB "mickey@example.com" "pass").2 = none ↔
      ∃ r ∈ defaultLoginDB, r.email = "mickey@example.com" ∧
        hexDecode (trimPfx sha256Tag r.password.data) = some (sha256Bytes (strBytes "pass")) :=
  tryLoginCredentials_nil_iff "" initialState defaultLoginDB "mickey@example.com" "pass"
    (by decide)

/-- C3: a register-then-login round trip. If `registerUser` succeeds, logging
in with the same email and plaintext password on the resulting database
succeeds: the stored `"sha256$" ++ hex(SHA-256(password))` is exactly the
form `tryLoginCredentials` strips, hex-decodes and compares. -/
theorem registerUser_login_roundtrip (db : List Row) (id : Nat)
    (email name pw rt wt hostUrl : String) (st : AppState) (db' : List Row)
    (hreg : registerUser db id email name pw rt wt = some db') :
    (tryLoginCredentials hostUrl st db' email pw).2 = none := by
  unfold registerUser at hreg
  by_cases hany : db.any (fun r => decide (r.id = id) || decide (r.email = email)) = true
  · rw [if_pos hany] at hreg
    exact absurd hreg (by simp)
  · rw [if_neg hany] at hreg
    have hdb' : db' = db ++ [⟨id, email, mkStoredPassword pw, name, rt, wt⟩] := by
      injection hreg with h
      exact h.symm
    subst hdb'
    have hnone : db.filter (fun r => decide (r.email = email)) = [] := by
      rw [List.filter_eq_nil_iff]
      intro r hrm hpred
      apply hany
      rw [List.any_eq_true]
      refine ⟨r, hrm, ?_⟩
      simp only [Bool.or_eq_true]
      exact Or.inr hpred
    have hfilter : (db ++ [(⟨id, email, mkStoredPassword pw, name, rt, wt⟩ : Row)]).filter
        (fun r => decide (r.email = email)) =
        [⟨id, email, mkStoredPassword pw, name, rt, wt⟩] := by
      rw [List.filter_append, hnone]
      simp
    simp only [tryLoginCredentials, hfilter]
    have hstored : trimPfx sha256Tag (mkStoredPassword pw).data =
        hexEncode (sha256Bytes (strBytes pw)) := by
      show trimPfx sha256Tag (sha256Tag ++ hexEncode (sha256Bytes (strBytes pw))) = _
      exact trimPfx_append _ _
    rw [hstored, hexDecode_hexEncode _ (sha256Bytes_lt _)]
    simp

/-- Witness for C3: register a concrete user into the empty table, then log
in with the same credentials. -/
theorem registerUser_login_roundtrip_witness :
    (tryLoginCredentials "" initialState
        ([] ++ [⟨1, "alice@example.com", mkStoredPassword "secret", "alice", "r", "w"⟩])
        "alice@example.com" "secret").2 = none :=
  registerUser_login_roundtrip [] 1 "alice@example.com" "alice" "secret" "r" "w" ""
    initialState _ rfl

/-- Helper for C9: every run of `tryLoginCredentials` either returns nil or
leaves the globals exactly as they were. -/
theorem tryLoginCredentials_nil_or_unchanged (hostUrl : String) (st : AppState)
    (db : List Row) (user pw : String) :
    (tryLoginCredentials hostUrl st db user pw).2 = none ∨
      (tryLoginCredentials hostUrl st db user pw).1 = st := by
  unfold tryLoginCredentials
  cases db.filter (fun r => decide (r.email = user)) with
  | nil => exact Or.inr rfl
  | cons r rest =>
    simp only
    cases hexDecode (trimPfx sha256Tag r.password.data) with
    | none => exact Or.inr rfl
    | some decoded =>
      by_cases hh : sha256Bytes (strBytes pw) = decoded
      · exact Or.inl (by simp [hh])
      · exact Or.inr (by simp [hh])

/-- C9: a failed login leaves the globals alone. Whenever
`tryLoginCredentials` returns a non-nil error, the returned `activeUser`,
`readClient` and `writeClient` are exactly the ones it started with. -/
theorem tryLoginCredentials_error_preserves_state (hostUrl : String) (st : AppState)
    (db : List Row) (user pw : String) (e : LoginError)
    (h : (tryLoginCredentials hostUrl st db user pw).2 = some e) :
    (tryLoginCredentials hostUrl st db user pw).1 = st := by
  rcases tryLoginCredentials_nil_or_unchanged hostUrl st db user pw with hn | hs
  · rw [hn] at h
    exact Option.noConfusion h
  · exact hs

/-- Witness for C9: a login against the empty table fails and returns the
initial state unchanged. -/
theorem tryLoginCredentials_error_preserves_state_witness :
    (tryLoginCredentials "" initialState [] "mickey@example.com" "pass").1 = initialState :=
  tryLoginCredentials_error_preserves_state "" initialState [] "mickey@example.com" "pass"
    .noMatchingUser rfl

end IotApp

/-!
### net/url.Parse and the IoT app host URL normalization

`cmd/iot_app/main.go` normalizes `INFLUXDB_HOST` at startup: a parse error
or an empty `Path` is fatal, and any scheme other than http/https
(compared with `strings.EqualFold`) is replaced by `https`. The relevant
fragment of Go `net/url.Parse` is embedded: fragment and query are cut
off, the scheme is recognised and lowercased, a rootless rest with a
nonempty scheme is opaque (leaving `Path` empty), an authority after `//`
is split off the path. Percent-decoding of the path and host/port
validation are elided: they cannot change whether `Path` is empty, nor
the scheme.
-/

/-- ASCII lowercasing of one character (schemes are ASCII by construction,
where Go `strings.ToLower` and `strings.EqualFold` restrict to ASCII
case-mapping). -/
def lowerChar (c : Char) : Char :=
  if 65 ≤ c.toNat ∧ c.toNat ≤ 90 then Char.ofNat (c.toNat + 32) else c

/-- `strings.EqualFold` on ASCII strings: equal after case-folding. -/
def eqFold (a b : List Char) : Bool := a.map lowerChar == b.map lowerChar

/-- ASCII letter. -/
def isAlphaChar (c : Char) : Bool :=
  decide (65 ≤ c.toNat ∧ c.toNat ≤ 90) || decide (97 ≤ c.toNat ∧ c.toNat ≤ 122)

/-- ASCII digit. -/
def isDigitChar (c : Char) : Bool := decide (48 ≤ c.toNat ∧ c.toNat ≤ 57)

/-- Go `net/url getScheme`: scan for `[alpha][alnum+-.]* :`. Yields the
scheme and the rest after the colon; a leading colon is the
"missing protocol scheme" error (`none`); any other shape means no scheme,
returning the whole input as rest. -/
def getScheme (orig : List Char) : List Char → List Char → Option (List Char × List Char)
  | [], _ => some ([], orig)
  | c :: cs, acc =>
    if isAlphaChar c then getScheme orig cs (acc ++ [c])
    else if isDigitChar c || c == '+' || c == '-' || c == '.' then
      if acc.isEmpty then some ([], orig) else getScheme orig cs (acc ++ [c])
    else if c == ':' then
      if acc.isEmpty then none else some (acc, cs)
    else some ([], orig)

/-- `strings.Cut` at the first occurrence of a separator: the part before
and the part after (the part before is the whole input when absent). -/
def cutChar (sep : Char) : List Char → List Char × List Char
  | [] => ([], [])
  | c :: cs =>
    if c == sep then ([], cs)
    else ((cutChar sep cs).1.cons c, (cutChar sep cs).2)

/-- The segment of an authority after its last `@` (the host part;
`parseAuthority` host/port validation elided). -/
def afterLastAt (auth : List Char) : List Char :=
  (auth.reverse.takeWhile (fun c => !(c == '@'))).reverse

/-- The characters before the first `/`. -/
def takeUntilSlash (l : List Char) : List Char := l.takeWhile (fun c => !(c == '/'))

/-- The characters from the first `/` on (empty when there is none). -/
def dropUntilSlash (l : List Char) : List Char := l.dropWhile (fun c => !(c == '/'))

/-- The components of a Go `url.URL` this code inspects. -/
structure GoUrl where
  scheme : String
  opq : String
  host : String
  path : String
deriving DecidableEq, Repr

/-- The authority/path split of `net/url.Parse` once fragment, query and
scheme are gone: when the rest begins with `//` (and, absent a scheme, not
with `///`), the authority runs to the next `/` and the path is what
follows; otherwise the whole rest is the path. -/
def parseAfter (scheme rest : List Char) : GoUrl :=
  if (decide (scheme ≠ []) || !(startsWith ['/', '/', '/'] rest)) &&
      startsWith ['/', '/'] rest then
    ⟨String.mk scheme, "", String.mk (afterLastAt (takeUntilSlash (rest.drop 2))),
     String.mk (dropUntilSlash (rest.drop 2))⟩
  else ⟨String.mk scheme, "", "", String.mk rest⟩

/-- Go `net/url.Parse` restricted to the components the IoT app reads: cut
the fragment, read and lowercase the scheme, cut the query; a rootless rest
is opaque when a scheme is present (`Path` stays empty), is rejected when
schemeless and its first segment holds a colon; otherwise authority and
path are split. `none` models a parse error (fatal in `main`). -/
def parseUrl (raw : String) : Option GoUrl :=
  match getScheme (cutChar '#' raw.data).1 (cutChar '#' raw.data).1 [] with
  | none => none
  | some (schRaw, rest0) =>
    if ((cutChar '?' rest0).1).head? = some '/' then
      some (parseAfter (schRaw.map lowerChar) (cutChar '?' rest0).1)
    else if schRaw.map lowerChar ≠ [] then
      some ⟨String.mk (schRaw.map lowerChar), String.mk (cutChar '?' rest0).1, "", ""⟩
    else if (takeUntilSlash (cutChar '?' rest0).1).contains ':' then none
    else some (parseAfter (schRaw.map lowerChar) (cutChar '?' rest0).1)

/-- The startup normalization of `INFLUXDB_HOST` in the IoT app `main`:
`log.Fatalf` (modelled `none`) when the parsed URL has an empty `Path`;
otherwise a scheme that is not http/https up to case is replaced by
`https`. -/
def normalizeHostUrl (u : GoUrl) : Option GoUrl :=
  if u.path.data.length = 0 then none
  else if eqFold u.scheme.data "http".data || eqFold u.scheme.data "https".data then some u
  else some { u with scheme := "https" }

/-! ### Claims about the HTTP sample applications -/

theorem collectTables_some_ne_none (rows : List (Bool × String)) :
    ∀ (t : List String) (acc : List (List String)),
      Boilerplate.collectTables (some t) acc rows ≠ none := by
  induction rows with
  | nil =>
    intro t acc h
    exact Option.noConfusion h
  | cons p rest ih =>
    intro t acc
    obtain ⟨changed, rcd⟩ := p
    cases changed
    · exact ih (t ++ [rcd]) acc
    · exact ih ([] ++ [rcd]) (acc ++ [t])

theorem collectTables_ok (rows : List (Bool × String)) (h : firstFlagOk rows = true) :
    ∃ tabs, Boilerplate.collectTables none [] rows = some tabs := by
  cases rows with
  | nil => exact ⟨[], rfl⟩
  | cons p rest =>
    obtain ⟨changed, rcd⟩ := p
    cases changed
    · exact absurd h (by simp [firstFlagOk])
    · exact Option.ne_none_iff_exists'.mp (collectTables_some_ne_none rest ([] ++ [rcd]) [])

/-- C4: on the error path of the boilerplate `/ingest` and `/query` handlers
(and of the sample-app `/ingest`, which inlines the same logic), the status
written is the status code carried by a `*influxdb2http.Error`, and 500 for
every other error kind; no other status is produced there. -/
theorem handler_error_statuses {ν : Type} (now : Nat) (req : IngestRequest ν)
    (qreq : UserRequest) (e : ClientError) :
    (Boilerplate.ingest now (some req) (fun _ => some e)).1 =
      .response (match e with | .httpError code _ => code | .other _ => 500) none
    ∧ (Boilerplate.query (some qreq) (.error e)).1 =
      .response (match e with | .httpError code _ => code | .other _ => 500) none
    ∧ (SampleApp.ingest now (some req) (fun _ => some e)).1 =
      .response (match e with | .httpError code _ => code | .other _ => 500) none := by
  cases e <;> exact ⟨rfl, rfl, rfl⟩

/-- C5: a request body that does not decode makes `/ingest`, `/query` and
`/setup` answer 400 Bad Request and return before touching the client
library: no point written, no query run, no task created. -/
theorem badbody_rejected {ν : Type} (now : Nat) (writePoint : Pt ν → Option ClientError)
    (qres : Except ClientError (List (Bool × String))) (bucketName orgID : String)
    (createTask : String → String → String → String → Option ClientError) :
    Boilerplate.ingest now (none : Option (IngestRequest ν)) writePoint
        = (.response 400 none, none)
    ∧ Boilerplate.query none qres = (.response 400 none, false)
    ∧ Boilerplate.setup bucketName orgID none createTask = (.response 400 none, none) :=
  ⟨rfl, rfl, rfl⟩

/-- Counterexample to C6 as stated: the `/tasks` endpoint (sample app),
given the well-formed body `{"user_id":"user1"}`, panics instead of
returning an empty 200/201 response or a JSON array of tables. -/
theorem tasks_breaks_endpoint_contract :
    okEmptyOrTables (SampleApp.tasks (some ⟨"user1"⟩)) = false := rfl

/-- C6 (amended): the boilerplate `/ingest`, `/query` and `/setup`
endpoints, on a well-formed body and a successful client-library call,
return an empty 200 response or a 200 response with the JSON array of query
result tables; `/tasks` (sample app) is excluded since it panics. -/
theorem endpoints_ok_on_success {ν : Type} (now : Nat) (req : IngestRequest ν)
    (qreq sreq : UserRequest) (rows : List (Bool × String)) (bucketName orgID : String)
    (hrows : firstFlagOk rows = true) :
    okEmptyOrTables (Boilerplate.ingest now (some req) (fun _ => none)).1 = true
    ∧ okEmptyOrTables (Boilerplate.query (some qreq) (.ok rows)).1 = true
    ∧ okEmptyOrTables
        (Boilerplate.setup bucketName orgID (some sreq) (fun _ _ _ _ => none)).1 = true := by
  refine ⟨rfl, ?_, rfl⟩
  obtain ⟨tabs, htabs⟩ := collectTables_ok rows hrows
  simp [Boilerplate.query, htabs, okEmptyOrTables]

/-- Witness for the amended C6 at concrete requests and a one-record
stream. -/
theorem endpoints_ok_on_success_witness :
    okEmptyOrTables (Boilerplate.ingest 0
        (some (⟨"user1", "measurement1", (1 : Nat)⟩ : IngestRequest Nat)) (fun _ => none)).1 = true
    ∧ okEmptyOrTables (Boilerplate.query (some ⟨"user1"⟩) (.ok [(true, "r")])).1 = true
    ∧ okEmptyOrTables
        (Boilerplate.setup "b" "o" (some ⟨"user1"⟩) (fun _ _ _ _ => none)).1 = true :=
  endpoints_ok_on_success 0 ⟨"user1", "measurement1", (1 : Nat)⟩ ⟨"user1"⟩ ⟨"user1"⟩
    [(true, "r")] "b" "o" rfl

/-- C7: every request reaching the body of the sample-app `/visualize`,
`/tasks` and `/monitor` handlers, and every sample-app `/query` request
whose body decodes and whose query call succeeds, ends in
`panic("not implemented")`; none of them writes a normal success
response. -/
theorem sample_handlers_panic (qreq : UserRequest) (rows : List (Bool × String))
    (body : Option UserRequest) :
    SampleApp.query (some qreq) (.ok rows) = (.panicked "not implemented", true)
    ∧ SampleApp.visualize = .panicked "not implemented"
    ∧ SampleApp.tasks body = .panicked "not implemented"
    ∧ SampleApp.monitor = .panicked "not implemented" :=
  ⟨rfl, rfl, rfl, rfl⟩

/-- C8: the point the `/ingest` handlers construct from a decoded request
is a single timestamped record: the request measurement, exactly the one
tag `user_id` mapped to the request user id, exactly the one field `field1`
mapped to the request number, and the handling time as timestamp. -/
theorem ingest_point_shape {ν : Type} (now : Nat) (req : IngestRequest ν)
    (wp wq : Pt ν → Option ClientError) :
    (Boilerplate.ingest now (some req) wp).2 =
      some ⟨req.measurement, [("user_id", req.user_id)], [("field1", req.field1)], now⟩
    ∧ (SampleApp.ingest now (some req) wq).2 =
      some ⟨req.measurement, [("user_id", req.user_id)], [("field1", req.field1)], now⟩ := by
  constructor
  · rcases hw : wp (mkIngestPoint req now) with - | e <;>
      (simp only [Boilerplate.ingest, hw]; rfl)
  · rcases hw : wq (mkIngestPoint req now) with - | e <;>
      (simp only [SampleApp.ingest, hw]; rfl)

/-! ### The claim about the host URL normalization -/

theorem toNat_ofNat_of_lt {n : Nat} (h : n < 55296) : (Char.ofNat n).toNat = n := by
  have hv : Nat.isValidChar n := Or.inl h
  simp [Char.ofNat, hv, Char.ofNatAux, Char.toNat, UInt32.toNat]

theorem lowerChar_idem (c : Char) : lowerChar (lowerChar c) = lowerChar c := by
  by_cases h : 65 ≤ c.toNat ∧ c.toNat ≤ 90
  · have h1 : lowerChar c = Char.ofNat (c.toNat + 32) := if_pos h
    have ht : (Char.ofNat (c.toNat + 32)).toNat = c.toNat + 32 := toNat_ofNat_of_lt (by omega)
    rw [h1]
    unfold lowerChar
    rw [ht, if_neg (by omega)]
  · have h1 : lowerChar c = c := if_neg h
    rw [h1]
    exact h1

theorem map_lowerChar_idem : ∀ l : List Char, (l.map lowerChar).map lowerChar = l.map lowerChar
  | [] => rfl
  | c :: cs => by
    simp only [List.map_cons, lowerChar_idem c, map_lowerChar_idem cs]

theorem eqFold_lowered {raw target : List Char} (htl : target.map lowerChar = target)
    (h : eqFold (raw.map lowerChar) target = true) : raw.map lowerChar = target := by
  rw [eqFold, beq_iff_eq] at h
  rw [map_lowerChar_idem, htl] at h
  exact h

theorem parseAfter_scheme (scheme rest : List Char) :
    (parseAfter scheme rest).scheme = String.mk scheme := by
  unfold parseAfter
  split <;> rfl

theorem parseUrl_scheme_lowered (s : String) (u : GoUrl) (h : parseUrl s = some u) :
    ∃ raw : List Char, u.scheme = String.mk (raw.map lowerChar) := by
  unfold parseUrl at h
  cases hg : getScheme (cutChar '#' s.data).1 (cutChar '#' s.data).1 [] with
  | none =>
    rw [hg] at h
    exact absurd h (by simp)
  | some pr =>
    obtain ⟨schRaw, rest0⟩ := pr
    rw [hg] at h
    simp only at h
    refine ⟨schRaw, ?_⟩
    split at h
    · rw [← Option.some.inj h, parseAfter_scheme]
    · split at h
      · rw [← Option.some.inj h]
      · split at h
        · exact absurd h (by simp)
        · rw [← Option.some.inj h, parseAfter_scheme]

/-- C10: in the IoT app startup normalization, a parsed `INFLUXDB_HOST`
whose `Path` component is empty is fatal, so a conventional
`scheme://host` URL with no trailing path (here `https://example.com`) is
rejected; and every accepted value ends with scheme `http` or `https`, any
other scheme (including none) being rewritten to `https`. -/
theorem hostUrl_normalization :
    (∀ u : GoUrl, u.path = "" → normalizeHostUrl u = none)
    ∧ (parseUrl "https://example.com").bind normalizeHostUrl = none
    ∧ (∀ (s : String) (u u' : GoUrl), parseUrl s = some u → normalizeHostUrl u = some u' →
        u'.scheme = "http" ∨ u'.scheme = "https") := by
  refine ⟨?_, by rfl, ?_⟩
  · intro u h
    simp [normalizeHostUrl, h]
  · intro s u u' hp hn
    obtain ⟨raw, hscheme⟩ := parseUrl_scheme_lowered s u hp
    unfold normalizeHostUrl at hn
    split at hn
    · exact absurd hn (by simp)
    · split at hn
      · rename_i hfold
        rw [← Option.some.inj hn]
        rcases Bool.or_eq_true_iff.mp hfold with hf | hf
        · left
          rw [hscheme] at hf ⊢
          rw [eqFold_lowered (by decide) hf]
        · right
          rw [hscheme] at hf ⊢
          rw [eqFold_lowered (by decide) hf]
      · rw [← Option.some.inj hn]
        exact Or.inr rfl

/-- Witness for C10: the pathless `https://example.com` is fatal, and the
accepted `HTTP://example.com/x` normalizes to scheme `http`. -/
theorem hostUrl_normalization_witness :
    normalizeHostUrl ⟨"https", "", "example.com", ""⟩ = none
    ∧ ((⟨"http", "", "example.com", "/x"⟩ : GoUrl).scheme = "http" ∨
        (⟨"http", "", "example.com", "/x"⟩ : GoUrl).scheme = "https") :=
  ⟨hostUrl_normalization.1 ⟨"https", "", "example.com", ""⟩ rfl,
   hostUrl_normalization.2.2 "HTTP://example.com/x" ⟨"http", "", "example.com", "/x"⟩
     ⟨"http", "", "example.com", "/x"⟩ rfl rfl⟩

end GoSamples
